import Mathlib

/-!
Verification of the color-analysis pipeline of `script.py`
(Image-Sorter-By-Colour): RGB→HSV conversion, weighted mood aggregation,
mood categorization, category/hue sorting, and the rename step.

Numeric values (Python floats holding hue/saturation/value data) are
embedded as exact rationals `ℚ`; Python's `%` on positive modulus is
embedded as `pymod` below.
-/

namespace ImageSorter

/-- Python's `a % b` for rationals (sign of the result follows `b`;
for `b > 0` the result lies in `[0, b)`), as used in `rgb_to_hsv`. -/
def pymod (a b : ℚ) : ℚ := a - b * ⌊a / b⌋

/-- The list `categories_order = ['earthy', 'warm', 'bright', 'cool', 'muted']`
(script.py line 36): the fixed category sort priority. -/
def categories_order : List String := ["earthy", "warm", "bright", "cool", "muted"]

/-- The warm-hue test of `categorize_color` (script.py line 144):
`warm = (hue <= 60) or (hue >= 300)`. -/
def is_warm (hue : ℚ) : Bool := decide (hue ≤ 60) || decide (300 ≤ hue)

/-- The function `categorize_color(hue, sat, val)` (script.py lines 124-155): ordered
decision list mapping an HSV summary to one of five category names. -/
def categorize_color (hue sat val : ℚ) : String :=
  if is_warm hue ∧ sat < 0.5 ∧ (0.3 < val ∧ val < 0.7) then "earthy"
  else if 0.6 < sat ∧ 0.7 < val then "bright"
  else if sat < 0.3 ∧ val < 0.5 then "muted"
  else if is_warm hue then "warm"
  else "cool"

/-- The function `rgb_to_hsv(rgb)` (script.py lines 63-95): channels are normalized to
`[0,1]` by dividing by 255; hue (degrees) is chosen by which channel
attains the maximum, saturation is `diff/mx` (0 if `mx = 0`), value is
`mx`. -/
def rgb_to_hsv (rgb : ℚ × ℚ × ℚ) : ℚ × ℚ × ℚ :=
  let r := rgb.1 / 255
  let g := rgb.2.1 / 255
  let b := rgb.2.2 / 255
  let mx := max r (max g b)
  let mn := min r (min g b)
  let diff := mx - mn
  let h :=
    if diff = 0 then 0
    else if mx = r then pymod (60 * ((g - b) / diff) + 360) 360
    else if mx = g then pymod (60 * ((b - r) / diff) + 120) 360
    else pymod (60 * ((r - g) / diff) + 240) 360
  let s := if mx = 0 then 0 else diff / mx
  (h, s, mx)

/-- The function `analyze_colors(palette, weights)` (script.py lines 97-122): converts
each palette entry to HSV, multiplies each component by the entry's
weight, and returns the three sums (weighted linear average). -/
def analyze_colors (palette : List (ℚ × ℚ × ℚ)) (weights : List ℚ) : ℚ × ℚ × ℚ :=
  let pairs := palette.zip weights
  let hues := pairs.map (fun cw => (rgb_to_hsv cw.1).1 * cw.2)
  let sats := pairs.map (fun cw => (rgb_to_hsv cw.1).2.1 * cw.2)
  let vals := pairs.map (fun cw => (rgb_to_hsv cw.1).2.2 * cw.2)
  (hues.sum, sats.sum, vals.sum)

/-- One element of `image_categorized` (script.py line 170): the tuple
`(img_file, category, avg_hue, avg_sat, avg_val)`. -/
structure ImageRecord where
  name : String
  category : String
  hue : ℚ
  sat : ℚ
  val : ℚ
deriving DecidableEq

/-- The sort key of script.py line 174:
`(categories_order.index(x[1]), x[2])`. -/
def sortKey (r : ImageRecord) : ℕ × ℚ := (categories_order.indexOf r.category, r.hue)

/-- Python's tuple comparison on the sort key: lexicographic, category
index first, then hue. -/
def recLe (a b : ImageRecord) : Prop :=
  (sortKey a).1 < (sortKey b).1 ∨ ((sortKey a).1 = (sortKey b).1 ∧ (sortKey a).2 ≤ (sortKey b).2)

instance : DecidableRel recLe := fun a b => by
  unfold recLe; infer_instance

instance : IsTotal ImageRecord recLe :=
  ⟨fun a b => by
    unfold recLe
    rcases lt_trichotomy (sortKey a).1 (sortKey b).1 with h | h | h
    · exact Or.inl (Or.inl h)
    · rcases le_total (sortKey a).2 (sortKey b).2 with h2 | h2
      · exact Or.inl (Or.inr ⟨h, h2⟩)
      · exact Or.inr (Or.inr ⟨h.symm, h2⟩)
    · exact Or.inr (Or.inl h)⟩

instance : IsTrans ImageRecord recLe :=
  ⟨fun a b c hab hbc => by
    unfold recLe at hab hbc ⊢
    rcases hab with h | ⟨he, h2⟩
    · rcases hbc with h' | ⟨he', h2'⟩
      · exact Or.inl (h.trans h')
      · exact Or.inl (by omega)
    · rcases hbc with h' | ⟨he', h2'⟩
      · exact Or.inl (by omega)
      · exact Or.inr ⟨he.trans he', h2.trans h2'⟩⟩

/-- The sort step `image_categorized.sort(key=...)` (script.py line 174): Python's
stable sort by the `(category index, hue)` key.  Stable sorts by a total
preorder agree extensionally, so insertion sort is a faithful model. -/
def sortRecords (l : List ImageRecord) : List ImageRecord :=
  l.insertionSort recLe

/-- The hue computation as the spec states it (section 4.2): red-max →
`60*((g-b)/diff) mod 360`, green-max → `60*((b-r)/diff) + 120 mod 360`,
blue-max → `60*((r-g)/diff) + 240 mod 360`, and `0` when `diff = 0`;
arguments are the already-normalized channels. -/
def hue_formula_spec (r g b : ℚ) : ℚ :=
  let mx := max r (max g b)
  let mn := min r (min g b)
  let diff := mx - mn
  if diff = 0 then 0
  else if mx = r then pymod (60 * ((g - b) / diff)) 360
  else if mx = g then pymod (60 * ((b - r) / diff) + 120) 360
  else pymod (60 * ((r - g) / diff) + 240) 360

/-- The per-image analysis loop of `main` (script.py lines 163-171).  An
input is a filename together with the outcome of `extract_palette`
(modelled from the spec: decoding and clustering are external
collaborators that either yield a palette with weights or signal a
DecodeError/AnalysisError).  The loop body has no exception handler, so
an error propagates and the remaining images are not processed. -/
def processImages :
    List (String × Except String (List (ℚ × ℚ × ℚ) × List ℚ)) →
    Except String (List ImageRecord)
  | [] => Except.ok []
  | (name, outcome) :: rest =>
    match outcome with
    | Except.error e => Except.error e
    | Except.ok (palette, weights) =>
      let s := analyze_colors palette weights
      match processImages rest with
      | Except.error e => Except.error e
      | Except.ok recs =>
        Except.ok (⟨name, categorize_color s.1 s.2.1 s.2.2, s.1, s.2.1, s.2.2⟩ :: recs)

/-- The extension `os.path.splitext(filename)[1]` (script.py line 178):
the suffix starting at the last dot, empty when there is no dot or when
every character before the last dot is itself a dot (Python keeps such
leading dots in the base name). -/
def file_ext (name : String) : String :=
  let cs := name.toList
  if '.' ∈ cs then
    let k := (cs.reverse.takeWhile (fun c => c ≠ '.')).length
    if (cs.take (cs.length - k - 1)).all (fun c => c = '.') then ""
    else String.mk (cs.drop (cs.length - k - 1))
  else ""

/-- Modelled from the spec: `os.rename` (script.py line 182) is the
external rename/I-O collaborator; per spec section 7 a rename whose
target name already exists in the folder is a fatal collision error, and
otherwise the source name is replaced by the target name in the folder
listing. -/
def rename_op (fs : List String) (src dst : String) : Except String (List String) :=
  if dst ∈ fs then Except.error dst
  else Except.ok (fs.erase src ++ [dst])

/-- The sequential rename loop of `main` (script.py lines 176-183) over
the enumerated sorted records (`enumerate(image_categorized, start=1)`);
the loop has no exception handler, so a failing rename stops all
remaining renames. -/
def rename_loop (fs : List String) : List (ℕ × ImageRecord) → Except String (List String)
  | [] => Except.ok fs
  | (i, r) :: rest =>
    match rename_op fs r.name (toString i ++ file_ext r.name) with
    | Except.error e => Except.error e
    | Except.ok fs2 => rename_loop fs2 rest

/-- The whole rename step: each record of the sorted list is renamed to
its 1-based sequence number followed by its original extension. -/
def do_renames (fs : List String) (records : List ImageRecord) : Except String (List String) :=
  rename_loop fs (List.enumFrom 1 records)

/-! ### Helper lemmas -/

theorem pymod_eq_fract (a : ℚ) {b : ℚ} (hb : b ≠ 0) :
    pymod a b = b * Int.fract (a / b) := by
  unfold pymod Int.fract
  field_simp

theorem pymod_nonneg (a : ℚ) {b : ℚ} (hb : 0 < b) : 0 ≤ pymod a b := by
  rw [pymod_eq_fract a hb.ne']
  exact mul_nonneg hb.le (Int.fract_nonneg _)

theorem pymod_lt (a : ℚ) {b : ℚ} (hb : 0 < b) : pymod a b < b := by
  rw [pymod_eq_fract a hb.ne']
  calc b * Int.fract (a / b) < b * 1 :=
        mul_lt_mul_of_pos_left (Int.fract_lt_one _) hb
    _ = b := mul_one b

theorem pymod_add_self (a : ℚ) {b : ℚ} (hb : b ≠ 0) :
    pymod (a + b) b = pymod a b := by
  unfold pymod
  rw [add_div, div_self hb]
  have hfl : ⌊a / b + 1⌋ = ⌊a / b⌋ + 1 := by
    have h1 := Int.floor_add_int (a / b) 1
    push_cast at h1
    omega
  rw [hfl]
  push_cast
  ring

theorem is_warm_iff (hue : ℚ) : is_warm hue = true ↔ (hue ≤ 60 ∨ 300 ≤ hue) := by
  simp [is_warm]

/-! ### Claim theorems -/

/-- C1: category assignment is total and deterministic — for every
(hue, sat, val) triple with hue in [0,360) and sat, val in [0,1],
`categorize_color` returns exactly one result, and it is one of the five
names earthy, warm, bright, cool, muted. -/
theorem c1_categorize_color_total (hue sat val : ℚ)
    (hhue : 0 ≤ hue ∧ hue < 360) (hsat : 0 ≤ sat ∧ sat ≤ 1)
    (hval : 0 ≤ val ∧ val ≤ 1) :
    categorize_color hue sat val = "earthy" ∨ categorize_color hue sat val = "warm" ∨
      categorize_color hue sat val = "bright" ∨ categorize_color hue sat val = "cool" ∨
      categorize_color hue sat val = "muted" := by
  unfold categorize_color
  split_ifs <;> simp

/-- Witness for C1 at the concrete triple (180, 0.5, 0.5). -/
theorem c1_categorize_color_total_witness :
    categorize_color 180 0.5 0.5 = "earthy" ∨ categorize_color 180 0.5 0.5 = "warm" ∨
      categorize_color 180 0.5 0.5 = "bright" ∨ categorize_color 180 0.5 0.5 = "cool" ∨
      categorize_color 180 0.5 0.5 = "muted" :=
  c1_categorize_color_total 180 0.5 0.5 (by norm_num) (by norm_num) (by norm_num)

/-- C2: `categorize_color` is the ordered decision list with strict
threshold inequalities — with isWarm = (hue ≤ 60 or hue ≥ 300) it
returns earthy iff isWarm ∧ sat < 0.5 ∧ 0.3 < val < 0.7; otherwise
bright iff sat > 0.6 ∧ val > 0.7; otherwise muted iff sat < 0.3 ∧
val < 0.5; otherwise warm iff isWarm; otherwise cool.  Boundary triples
fall through to the next rule, e.g. (60, 0.49, 0.5) gives earthy. -/
theorem c2_categorize_color_decision_list :
    (∀ hue sat val : ℚ,
      (categorize_color hue sat val = "earthy" ↔
        ((hue ≤ 60 ∨ 300 ≤ hue) ∧ sat < 0.5 ∧ (0.3 < val ∧ val < 0.7))) ∧
      (categorize_color hue sat val = "bright" ↔
        (¬((hue ≤ 60 ∨ 300 ≤ hue) ∧ sat < 0.5 ∧ (0.3 < val ∧ val < 0.7)) ∧
          (0.6 < sat ∧ 0.7 < val))) ∧
      (categorize_color hue sat val = "muted" ↔
        (¬((hue ≤ 60 ∨ 300 ≤ hue) ∧ sat < 0.5 ∧ (0.3 < val ∧ val < 0.7)) ∧
          ¬(0.6 < sat ∧ 0.7 < val) ∧ (sat < 0.3 ∧ val < 0.5))) ∧
      (categorize_color hue sat val = "warm" ↔
        (¬((hue ≤ 60 ∨ 300 ≤ hue) ∧ sat < 0.5 ∧ (0.3 < val ∧ val < 0.7)) ∧
          ¬(0.6 < sat ∧ 0.7 < val) ∧ ¬(sat < 0.3 ∧ val < 0.5) ∧
          (hue ≤ 60 ∨ 300 ≤ hue))) ∧
      (categorize_color hue sat val = "cool" ↔
        (¬((hue ≤ 60 ∨ 300 ≤ hue) ∧ sat < 0.5 ∧ (0.3 < val ∧ val < 0.7)) ∧
          ¬(0.6 < sat ∧ 0.7 < val) ∧ ¬(sat < 0.3 ∧ val < 0.5) ∧
          ¬(hue ≤ 60 ∨ 300 ≤ hue)))) ∧
    categorize_color 60 0.49 0.5 = "earthy" := by
  constructor
  · intro hue sat val
    unfold categorize_color
    simp only [is_warm_iff]
    have hstr : (("earthy" : String) ≠ "bright") ∧ (("earthy" : String) ≠ "muted") ∧
        (("earthy" : String) ≠ "warm") ∧ (("earthy" : String) ≠ "cool") ∧
        (("bright" : String) ≠ "earthy") ∧ (("bright" : String) ≠ "muted") ∧
        (("bright" : String) ≠ "warm") ∧ (("bright" : String) ≠ "cool") ∧
        (("muted" : String) ≠ "earthy") ∧ (("muted" : String) ≠ "bright") ∧
        (("muted" : String) ≠ "warm") ∧ (("muted" : String) ≠ "cool") ∧
        (("warm" : String) ≠ "earthy") ∧ (("warm" : String) ≠ "bright") ∧
        (("warm" : String) ≠ "muted") ∧ (("warm" : String) ≠ "cool") ∧
        (("cool" : String) ≠ "earthy") ∧ (("cool" : String) ≠ "bright") ∧
        (("cool" : String) ≠ "muted") ∧ (("cool" : String) ≠ "warm") := by
      refine ⟨?_, ?_, ?_, ?_, ?_, ?_, ?_, ?_, ?_, ?_, ?_, ?_, ?_, ?_, ?_, ?_, ?_,
        ?_, ?_, ?_⟩ <;> decide
    obtain ⟨n1, n2, n3, n4, n5, n6, n7, n8, n9, n10, n11, n12, n13, n14, n15, n16,
      n17, n18, n19, n20⟩ := hstr
    split_ifs with h1 h2 h3 h4
    · exact ⟨iff_of_true rfl h1, iff_of_false n1 (fun h => h.1 h1),
        iff_of_false n2 (fun h => h.1 h1), iff_of_false n3 (fun h => h.1 h1),
        iff_of_false n4 (fun h => h.1 h1)⟩
    · exact ⟨iff_of_false n5 h1, iff_of_true rfl ⟨h1, h2⟩,
        iff_of_false n6 (fun h => h.2.1 h2), iff_of_false n7 (fun h => h.2.1 h2),
        iff_of_false n8 (fun h => h.2.1 h2)⟩
    · exact ⟨iff_of_false n9 h1, iff_of_false n10 (fun h => h2 h.2),
        iff_of_true rfl ⟨h1, h2, h3⟩, iff_of_false n11 (fun h => h.2.2.1 h3),
        iff_of_false n12 (fun h => h.2.2.1 h3)⟩
    · exact ⟨iff_of_false n13 h1, iff_of_false n14 (fun h => h2 h.2),
        iff_of_false n15 (fun h => h3 h.2.2), iff_of_true rfl ⟨h1, h2, h3, h4⟩,
        iff_of_false n16 (fun h => h.2.2.2 h4)⟩
    · exact ⟨iff_of_false n17 (fun h => h4 h.1), iff_of_false n18 (fun h => h2 h.2),
        iff_of_false n19 (fun h => h3 h.2.2), iff_of_false n20 (fun h => h4 h.2.2.2),
        iff_of_true rfl ⟨h1, h2, h3, h4⟩⟩
  · norm_num [categorize_color, is_warm]

/-- C3 counterexample: the claim says `categorize_color(60.0001, 0.49, 0.5)`
returns warm, but the code returns cool — at hue just above 60 the warm
test is false, so both the earthy and the warm branch are skipped. -/
theorem c3_counterexample :
    categorize_color 60.0001 0.49 0.5 ≠ "warm" := by
  have h : categorize_color 60.0001 0.49 0.5 = "cool" := by
    norm_num [categorize_color, is_warm]
  rw [h]
  decide

/-- C3 (amended): for the input triple (hue=60.0001, sat=0.49, val=0.5),
`categorize_color` returns cool. -/
theorem c3_boundary_cool :
    categorize_color 60.0001 0.49 0.5 = "cool" := by
  norm_num [categorize_color, is_warm]

/-- C5: `rgb_to_hsv` computes hue by the six-sector piecewise formula
(base offset selected by which normalized channel attains the maximum,
0 when diff = 0), the returned hue always lies in [0, 360), and the
pure primaries map to hue 0, 120, 240 with saturation and value 1. -/
theorem c5_rgb_to_hsv_hue_formula :
    (∀ r g b : ℚ, 0 ≤ r → r ≤ 255 → 0 ≤ g → g ≤ 255 → 0 ≤ b → b ≤ 255 →
      (rgb_to_hsv (r, g, b)).1 = hue_formula_spec (r / 255) (g / 255) (b / 255) ∧
      0 ≤ (rgb_to_hsv (r, g, b)).1 ∧ (rgb_to_hsv (r, g, b)).1 < 360) ∧
    rgb_to_hsv (255, 0, 0) = (0, 1, 1) ∧
    rgb_to_hsv (0, 255, 0) = (120, 1, 1) ∧
    rgb_to_hsv (0, 0, 255) = (240, 1, 1) := by
  refine ⟨?_, ?_, ?_, ?_⟩
  · intro r g b _ _ _ _ _ _
    unfold rgb_to_hsv hue_formula_spec
    dsimp only
    refine ⟨?_, ?_, ?_⟩
    · split_ifs with hd hr hg
      · rfl
      · exact pymod_add_self _ (by norm_num)
      · rfl
      · rfl
    · split_ifs with hd hr hg
      · exact le_refl 0
      · exact pymod_nonneg _ (by norm_num)
      · exact pymod_nonneg _ (by norm_num)
      · exact pymod_nonneg _ (by norm_num)
    · split_ifs with hd hr hg
      · norm_num
      · exact pymod_lt _ (by norm_num)
      · exact pymod_lt _ (by norm_num)
      · exact pymod_lt _ (by norm_num)
  · norm_num [rgb_to_hsv, pymod]
  · norm_num [rgb_to_hsv, pymod]
  · norm_num [rgb_to_hsv, pymod]

/-- Witness for C5 at the concrete triple (10, 20, 30). -/
theorem c5_rgb_to_hsv_hue_formula_witness :
    (rgb_to_hsv (10, 20, 30)).1 = hue_formula_spec (10 / 255) (20 / 255) (30 / 255) ∧
    0 ≤ (rgb_to_hsv (10, 20, 30)).1 ∧ (rgb_to_hsv (10, 20, 30)).1 < 360 :=
  c5_rgb_to_hsv_hue_formula.1 10 20 30 (by norm_num) (by norm_num) (by norm_num)
    (by norm_num) (by norm_num) (by norm_num)

/-- C6: for every achromatic RGB triple with r = g = b (any shared
channel value in [0, 255]), `rgb_to_hsv` returns hue 0 and saturation 0. -/
theorem c6_achromatic (c : ℚ) (h0 : 0 ≤ c) (h255 : c ≤ 255) :
    (rgb_to_hsv (c, c, c)).1 = 0 ∧ (rgb_to_hsv (c, c, c)).2.1 = 0 := by
  unfold rgb_to_hsv
  dsimp only
  rw [max_self, max_self, min_self, min_self, sub_self]
  constructor
  · simp
  · split_ifs <;> simp

/-- Witness for C6 at the shared channel value 7. -/
theorem c6_achromatic_witness :
    (rgb_to_hsv (7, 7, 7)).1 = 0 ∧ (rgb_to_hsv (7, 7, 7)).2.1 = 0 :=
  c6_achromatic 7 (by norm_num) (by norm_num)

theorem map_zip_eq_zipWith {α β γ : Type} (f : α → β → γ) :
    ∀ (l1 : List α) (l2 : List β),
      (l1.zip l2).map (fun p => f p.1 p.2) = List.zipWith f l1 l2
  | [], _ => by simp
  | _ :: _, [] => by simp
  | a :: l1, b :: l2 => by
    simp only [List.zip_cons_cons, List.map_cons, List.zipWith_cons_cons]
    exact congrArg _ (map_zip_eq_zipWith f l1 l2)

/-- C7: `analyze_colors` returns the weight-scaled sums of the per-entry
HSV components (linear, non-circular, no further normalization); for a
two-color palette whose hues convert to 0 and 100 with weights 0.5 and
0.5 the average hue is exactly 50. -/
theorem c7_analyze_colors_weighted_sum :
    (∀ (palette : List (ℚ × ℚ × ℚ)) (weights : List ℚ),
      analyze_colors palette weights =
        ((List.zipWith (fun c w => (rgb_to_hsv c).1 * w) palette weights).sum,
         (List.zipWith (fun c w => (rgb_to_hsv c).2.1 * w) palette weights).sum,
         (List.zipWith (fun c w => (rgb_to_hsv c).2.2 * w) palette weights).sum)) ∧
    (∀ (c1 c2 : ℚ × ℚ × ℚ) (w1 w2 : ℚ),
      (analyze_colors [c1, c2] [w1, w2]).1 =
        (rgb_to_hsv c1).1 * w1 + (rgb_to_hsv c2).1 * w2) ∧
    (analyze_colors [(255, 0, 0), (85, 255, 0)] [0.5, 0.5]).1 = 50 := by
  refine ⟨?_, ?_, ?_⟩
  · intro palette weights
    unfold analyze_colors
    dsimp only
    rw [map_zip_eq_zipWith (fun c w => (rgb_to_hsv c).1 * w),
      map_zip_eq_zipWith (fun c w => (rgb_to_hsv c).2.1 * w),
      map_zip_eq_zipWith (fun c w => (rgb_to_hsv c).2.2 * w)]
  · intro c1 c2 w1 w2
    simp [analyze_colors]
  · have h1 : rgb_to_hsv (255, 0, 0) = (0, 1, 1) := by norm_num [rgb_to_hsv, pymod]
    have h2 : rgb_to_hsv (85, 255, 0) = (100, 1, 1) := by norm_num [rgb_to_hsv, pymod]
    simp only [analyze_colors, List.zip_cons_cons, List.zip_nil_right, List.map_cons,
      List.map_nil, List.sum_cons, List.sum_nil, h1, h2]
    norm_num

theorem indexOf_earthy : categories_order.indexOf "earthy" = 0 := rfl

theorem indexOf_warm : categories_order.indexOf "warm" = 1 := rfl

theorem indexOf_bright : categories_order.indexOf "bright" = 2 := rfl

theorem indexOf_cool : categories_order.indexOf "cool" = 3 := rfl

theorem indexOf_muted : categories_order.indexOf "muted" = 4 := rfl

/-- C4: the sort step orders records by the category's index in
`categories_order` ascending, then by hue ascending (this is exactly the
order `recLe`), it permutes the input, and records with equal category
and hue keep their original relative order; on
[(A, bright, 10), (B, earthy, 350), (C, earthy, 5)] it yields
[C, B, A]. -/
theorem c4_sort_records :
    (∀ l : List ImageRecord, (∀ r ∈ l, r.category ∈ categories_order) →
      (sortRecords l).Perm l ∧
      List.Sorted recLe (sortRecords l) ∧
      (∀ a b : ImageRecord, a.category = b.category → a.hue = b.hue →
        [a, b].Sublist l → [a, b].Sublist (sortRecords l))) ∧
    sortRecords
        [⟨"A", "bright", 10, 0, 0⟩, ⟨"B", "earthy", 350, 0, 0⟩, ⟨"C", "earthy", 5, 0, 0⟩] =
      [⟨"C", "earthy", 5, 0, 0⟩, ⟨"B", "earthy", 350, 0, 0⟩, ⟨"A", "bright", 10, 0, 0⟩] := by
  constructor
  · intro l hcat
    refine ⟨List.perm_insertionSort recLe l, List.sorted_insertionSort recLe l, ?_⟩
    intro a b hc hh hsub
    refine List.pair_sublist_insertionSort ?_ hsub
    unfold recLe sortKey
    exact Or.inr ⟨by rw [hc], by rw [hh]⟩
  · norm_num [sortRecords, List.insertionSort, List.orderedInsert, recLe, sortKey,
      indexOf_earthy, indexOf_bright]

/-- Witness for C4 on a concrete two-record list with categories among
the five names. -/
theorem c4_sort_records_witness :
    (sortRecords [⟨"X", "warm", 3, 0, 0⟩, ⟨"Y", "warm", 3, 0, 0⟩]).Perm
      [⟨"X", "warm", 3, 0, 0⟩, ⟨"Y", "warm", 3, 0, 0⟩] ∧
    [(⟨"X", "warm", 3, 0, 0⟩ : ImageRecord), ⟨"Y", "warm", 3, 0, 0⟩].Sublist
      (sortRecords [⟨"X", "warm", 3, 0, 0⟩, ⟨"Y", "warm", 3, 0, 0⟩]) := by
  have h := c4_sort_records.1 [⟨"X", "warm", 3, 0, 0⟩, ⟨"Y", "warm", 3, 0, 0⟩]
    (by intro r hr; simp [categories_order] at hr ⊢; rcases hr with h | h <;> simp [h])
  exact ⟨h.1, h.2.2 _ _ rfl rfl (List.Sublist.refl _)⟩

/-- C8: if the target filename of the current rename (sequence number
plus original extension) already exists in the folder, the rename fails
with that collision and none of the remaining renames is performed
(`rename_op` errors before touching the folder, so no existing file is
overwritten). -/
theorem c8_rename_collision_halts (fs : List String) (i : ℕ) (r : ImageRecord)
    (rest : List (ℕ × ImageRecord))
    (hcol : (toString i ++ file_ext r.name) ∈ fs) :
    rename_loop fs ((i, r) :: rest) = Except.error (toString i ++ file_ext r.name) ∧
    rename_op fs r.name (toString i ++ file_ext r.name) =
      Except.error (toString i ++ file_ext r.name) := by
  have hop : rename_op fs r.name (toString i ++ file_ext r.name) =
      Except.error (toString i ++ file_ext r.name) := by
    unfold rename_op
    rw [if_pos hcol]
  refine ⟨?_, hop⟩
  unfold rename_loop
  rw [hop]

/-- Witness for C8: the folder already holds "1.png" (say from a prior
partial run), and the first record's target name is again "1.png". -/
theorem c8_rename_collision_halts_witness :
    rename_loop ["1.png", "a.png"] [(1, ⟨"a.png", "warm", 0, 0, 0⟩)] =
      Except.error (toString 1 ++ file_ext "a.png") :=
  (c8_rename_collision_halts ["1.png", "a.png"] 1 ⟨"a.png", "warm", 0, 0, 0⟩ []
    (by decide)).1

/-- C9 counterexample: a batch whose first image fails to decode and
whose second image is fine — the loop returns the error, the second
image is never turned into a record, and no record list is produced;
the single failure aborts the whole batch, contrary to the claim. -/
theorem c9_counterexample :
    processImages [("a.png", Except.error "DecodeError"),
        ("b.png", Except.ok ([(255, 0, 0)], [1]))] =
      Except.error "DecodeError" ∧
    ∀ recs : List ImageRecord,
      processImages [("a.png", Except.error "DecodeError"),
          ("b.png", Except.ok ([(255, 0, 0)], [1]))] ≠ Except.ok recs := by
  refine ⟨rfl, ?_⟩
  intro recs h
  rw [show processImages [("a.png", Except.error "DecodeError"),
      ("b.png", Except.ok ([(255, 0, 0)], [1]))] = Except.error "DecodeError" from rfl] at h
  exact Except.noConfusion h

/-- C9 (amended): the pipeline loop has no per-image error handling —
an extraction error on any image makes the whole loop return that error
immediately, so the remaining images are not processed and no records
are surfaced. -/
theorem c9_error_aborts_batch (name : String) (e : String)
    (rest : List (String × Except String (List (ℚ × ℚ × ℚ) × List ℚ))) :
    processImages ((name, Except.error e) :: rest) = Except.error e := rfl

theorem categorize_color_mem (hue sat val : ℚ) :
    categorize_color hue sat val ∈ categories_order := by
  unfold categorize_color
  split_ifs <;> simp [categories_order]

/-- C10: every record produced by the pipeline loop stores a category
that is a member of `categories_order`, so the sort-key lookup
`categories_order.index(category)` succeeds for every element being
sorted. -/
theorem c10_category_lookup_safe
    (inputs : List (String × Except String (List (ℚ × ℚ × ℚ) × List ℚ)))
    (recs : List ImageRecord) (h : processImages inputs = Except.ok recs) :
    ∀ r ∈ recs, r.category ∈ categories_order ∧
      categories_order.indexOf r.category < categories_order.length := by
  induction inputs generalizing recs with
  | nil =>
    rw [show processImages [] = Except.ok [] from rfl] at h
    cases h
    intro r hr
    exact absurd hr (List.not_mem_nil r)
  | cons hd tl ih =>
    obtain ⟨name, outcome⟩ := hd
    cases outcome with
    | error e =>
      rw [show processImages ((name, Except.error e) :: tl) = Except.error e from rfl] at h
      exact Except.noConfusion h
    | ok pw =>
      obtain ⟨palette, weights⟩ := pw
      cases htl : processImages tl with
      | error e =>
        unfold processImages at h
        rw [htl] at h
        exact Except.noConfusion h
      | ok recs2 =>
        unfold processImages at h
        rw [htl] at h
        cases h
        intro r hr
        rcases List.mem_cons.mp hr with hr1 | hr2
        · subst hr1
          refine ⟨categorize_color_mem _ _ _, ?_⟩
          exact List.indexOf_lt_length.mpr (categorize_color_mem _ _ _)
        · exact ih recs2 htl r hr2

/-- Witness for C10: a one-image batch that yields one record, whose
category lookup succeeds. -/
theorem c10_category_lookup_safe_witness :
    (ImageRecord.mk "a.png" "bright" 0 1 1).category ∈ categories_order ∧
      categories_order.indexOf (ImageRecord.mk "a.png" "bright" 0 1 1).category <
        categories_order.length :=
  c10_category_lookup_safe [("a.png", Except.ok ([(255, 0, 0)], [1]))]
    [⟨"a.png", "bright", 0, 1, 1⟩] (by
      have h1 : rgb_to_hsv (255, 0, 0) = (0, 1, 1) := by norm_num [rgb_to_hsv, pymod]
      have h2 : analyze_colors [(255, 0, 0)] [1] = (0, 1, 1) := by
        simp only [analyze_colors, List.zip_cons_cons, List.zip_nil_right, List.map_cons,
          List.map_nil, List.sum_cons, List.sum_nil, h1]
        norm_num
      have h3 : categorize_color 0 1 1 = "bright" := by norm_num [categorize_color, is_warm]
      simp only [processImages, h2]
      rw [h3])
    ⟨"a.png", "bright", 0, 1, 1⟩ (List.mem_singleton.mpr rfl)

end ImageSorter
